import Mathlib

/-!
Verification of the Track Studio audio analyzer (`pkg/audio/analyzer.py`).

The analyzer's own logic is embedded shallowly over exact rationals:

* `estimate_key` — the Krumhansl-Schmuckler key selection (source lines
  17-45).  The library call `np.corrcoef(...)[0, 1]` is taken as a
  parameter `corr`, and `np.mean(chroma, axis=1)` / `np.roll` / `max` /
  `list.index` are embedded directly.
* `get_tempo_description` — the BPM description cascade (lines 48-63).
* `estimate_genre` — the rule cascade (lines 84-137) over the five scalar
  features.  The two library feature extractions (rolloff, bandwidth,
  lines 73-74) become parameters; the normalized values computed on lines
  77-79 are dead code in the source (never read) and are omitted.
* `detect_vocal_segments` — the RMS-threshold segmenter (lines 140-187).
  The RMS curve produced by the library call on line 148 is the input;
  frame-to-time conversion (line 151, hop length 512) and the whole
  open/close loop are embedded.
* `analyze_audio` — the orchestrator (lines 190-249).  Every fallible
  library call is a parameter returning `Except PyErr _`; the Python
  `try`/`except` block is the `Except` short-circuiting plus the final
  `match` that builds the structured failure record.
-/

/-- `np.mean` of a one-dimensional array, as an exact rational. -/
def npMean (l : List ℚ) : ℚ := l.sum / (l.length : ℚ)

/-- Python `max(list)`: fold of `max` started at the first element. -/
def pymax (l : List ℚ) : ℚ := l.foldl max (l.headD 0)

/-- `librosa.frames_to_time` with the source's hop length 512:
frame `k` starts at `k * 512 / sr` seconds. -/
def timeOfFrame (sr : ℕ) (k : ℕ) : ℚ := ((k : ℚ) * 512) / (sr : ℚ)

/-! ## Key estimation (source lines 17-45) -/

/-- Krumhansl-Schmuckler major template (source line 20). -/
def major_profile : List ℚ :=
  [6.35, 2.23, 3.48, 2.33, 4.38, 4.09, 2.52, 5.19, 2.39, 3.66, 2.29, 2.88]

/-- Krumhansl-Schmuckler minor template (source line 21). -/
def minor_profile : List ℚ :=
  [6.33, 2.68, 3.52, 5.38, 2.60, 3.53, 2.54, 4.75, 3.98, 2.69, 3.34, 3.17]

/-- Pitch-class names (source line 23), written as the two halves of the
chromatic scale. -/
def key_names : List String :=
  ["C", "C#", "D", "D#", "E", "F"] ++ ["F#", "G", "G#", "A", "A#", "B"]

/-- `np.mean(chroma, axis=1)` (source line 26): the chroma matrix is a list
of 12 pitch-class rows, each a time series; average each row over time. -/
def chroma_mean (chroma : List (List ℚ)) : List ℚ := chroma.map npMean

/-- The list built on source lines 29-33: correlation of every rotation of
the major template against the averaged chroma.  `np.roll(p, i)` is
`List.rotateRight i`; `corr` stands for `np.corrcoef(·, ·)[0, 1]`. -/
def major_correlations (corr : List ℚ → List ℚ → ℚ) (chroma : List (List ℚ)) : List ℚ :=
  (List.range 12).map (fun i => corr (major_profile.rotateRight i) (chroma_mean chroma))

/-- Minor-template counterpart of `major_correlations` (source line 34). -/
def minor_correlations (corr : List ℚ → List ℚ → ℚ) (chroma : List (List ℚ)) : List ℚ :=
  (List.range 12).map (fun i => corr (minor_profile.rotateRight i) (chroma_mean chroma))

/-- `estimate_key` (source lines 36-45): take the maximum of each
correlation family; if the major maximum is strictly greater return the
major label at its first argmax, otherwise the minor label. -/
def estimate_key (corr : List ℚ → List ℚ → ℚ) (chroma : List (List ℚ)) : String :=
  let max_major := pymax (major_correlations corr chroma)
  let max_minor := pymax (minor_correlations corr chroma)
  if max_minor < max_major then
    key_names.getD ((major_correlations corr chroma).indexOf max_major) "" ++ " Major"
  else
    key_names.getD ((minor_correlations corr chroma).indexOf max_minor) "" ++ " Minor"

/-- Centering of a vector at its mean; used to build a concrete
covariance-style instantiation of the `corr` parameter. -/
def centeredQ (l : List ℚ) : List ℚ := l.map (fun x => x - npMean l)

/-- Dot product of two rational vectors. -/
def dotQ (x y : List ℚ) : ℚ := (List.zipWith (· * ·) x y).sum

/-- Sample-covariance-style correlation measure: the dot product of the
two centered vectors.  A concrete, exactly computable stand-in for the
Pearson numerator, used to instantiate the `corr` parameter on inputs. -/
def covQ (x y : List ℚ) : ℚ := dotQ (centeredQ x) (centeredQ y)

/-- A chroma profile engineered so that under `covQ` the best major
rotation and the best minor rotation score exactly the same value (both
at rotation 0).  It is `6000000 * (al • a + be • b)` for the centered
major/minor templates `a`, `b` and the bisector weights
`al = b·b - a·b`, `be = a·a - a·b`, which makes
`covQ (rotation 0 of major) c = covQ (rotation 0 of minor) c` exactly
(positive scaling does not change any of the comparisons). -/
def tieChroma : List ℚ :=
  [281238369, -115781827, -11660603, 53368773, -29833595, 14722001,
   -112081379, 135717673, -29613339, -54755207, -72931723, -58389143]

/-- `tieChroma` as a 12-row, one-column chroma matrix. -/
def tieChromaMatrix : List (List ℚ) := tieChroma.map (fun q => [q])

/-! ## Tempo description (source lines 48-63) -/

/-- `get_tempo_description` (source lines 48-63). -/
def get_tempo_description (bpm : ℚ) : String :=
  if bpm < 60 then "Very Slow"
  else if bpm < 80 then "Slow"
  else if bpm < 100 then "Moderate"
  else if bpm < 120 then "Medium Fast"
  else if bpm < 140 then "Fast"
  else if bpm < 160 then "Very Fast"
  else "Extremely Fast"

/-! ## Genre classification (source lines 66-137) -/

/-- `estimate_genre` (source lines 84-137): the rule cascade over tempo and
the four spectral scalars.  Rolloff and bandwidth are computed by library
calls on lines 73-74 and appear here as arguments; lines 77-79 compute
normalized copies that the source never reads. -/
def estimate_genre (tempo spectral_centroid zero_crossing_rate spectral_rolloff
    spectral_bandwidth : ℚ) : String :=
  if 120 < tempo ∧ 2500 < spectral_centroid ∧ 1800 < spectral_bandwidth then
    if 140 < tempo then "Electronic" else "Dance"
  else if 0.1 < zero_crossing_rate ∧ 4000 < spectral_rolloff then
    if 140 < tempo ∧ 3000 < spectral_centroid then "Metal" else "Rock"
  else if 80 ≤ tempo ∧ tempo ≤ 110 ∧ spectral_centroid < 2000 then "Hip-Hop"
  else if 70 ≤ tempo ∧ tempo ≤ 100 ∧ spectral_centroid < 2500 ∧ zero_crossing_rate < 0.08 then
    "R&B"
  else if 2000 < spectral_bandwidth ∧ 100 ≤ tempo ∧ tempo ≤ 140 then "Jazz"
  else if 2200 < spectral_bandwidth ∧ tempo < 140 then "Classical"
  else if 90 ≤ tempo ∧ tempo ≤ 130 ∧ 1500 ≤ spectral_centroid ∧ spectral_centroid ≤ 2500 then
    "Country"
  else if tempo < 100 ∧ spectral_centroid < 1800 then "Blues"
  else if 100 ≤ tempo ∧ tempo ≤ 130 then "Pop"
  else if 90 ≤ tempo ∧ tempo ≤ 140 then "Indie"
  else if 80 ≤ tempo ∧ tempo ≤ 110 ∧ zero_crossing_rate < 0.09 then "Reggae"
  else if tempo < 80 then "Ballad"
  else if 150 < tempo then "Punk"
  else "Alternative"

/-- The fixed label set of the genre cascade. -/
def genreLabels : List String :=
  ["Electronic", "Dance", "Metal", "Rock", "Hip-Hop", "R&B", "Jazz", "Classical",
   "Country", "Blues", "Pop", "Indie", "Reggae", "Ballad", "Punk", "Alternative"]

/-! ## Vocal segment detection (source lines 140-187) -/

/-- The `{'start', 'end', 'duration'}` record appended on source lines
172-176 and 181-185.  The source's `end` field is called `stop` here
(`end` is a Lean keyword). -/
structure VocalSegment where
  start : ℚ
  stop : ℚ
  duration : ℚ
  deriving DecidableEq

/-- The adaptive threshold of source line 154: `np.mean(rms) * 0.5`. -/
def vocalThreshold (rms : List ℚ) : ℚ := npMean rms * 0.5

/-- The frame loop of source lines 160-185 over the zipped
`(time, is_vocal)` stream, including the final close at `times[-1]`
(`lastT`) when the signal ends inside a segment. -/
def segLoop (lastT : ℚ) : List (ℚ × Bool) → Bool → ℚ → List VocalSegment
  | [], inSeg, s => if inSeg then [⟨s, lastT, lastT - s⟩] else []
  | (t, v) :: rest, inSeg, s =>
    if v = true ∧ inSeg = false then
      segLoop lastT rest true t
    else if v = false ∧ inSeg = true then
      (if (0.5 : ℚ) < t - s then [⟨s, t, t - s⟩] else []) ++ segLoop lastT rest false s
    else
      segLoop lastT rest inSeg s

/-- `detect_vocal_segments` (source lines 140-187).  The RMS curve computed
by the library call on line 148 is the `rms` argument; `times` is the
frame grid of line 151 and `is_vocal` the thresholded curve of line 157.
The unused `beat_times` parameter of the source is dropped. -/
def detect_vocal_segments (rms : List ℚ) (sr : ℕ) : List VocalSegment :=
  let times := (List.range rms.length).map (timeOfFrame sr)
  let threshold := vocalThreshold rms
  let is_vocal := rms.map (fun r => decide (threshold < r))
  segLoop (times.getLastD 0) (times.zip is_vocal) false 0

/-- Frame `k` of the thresholded curve `rms > threshold`, as a function of
the frame index. -/
def vocFlag (rms : List ℚ) (k : ℕ) : Bool :=
  decide (vocalThreshold rms < rms.getD k 0)

/-- Shape of one emitted segment, with `voc` the thresholded curve, `n` the
frame count and `dt` the frame spacing in seconds: it opens at the first
frame `i0` of a maximal above-threshold run and either closes at the first
below-threshold frame `j` (passing the 0.5 s filter) or — if the run
reaches the end of the signal — closes at the final frame time. -/
def SegShape (voc : ℕ → Bool) (n : ℕ) (dt : ℚ) (g : VocalSegment) : Prop :=
  ∃ i0 j, i0 < j ∧ j ≤ n ∧ voc i0 = true ∧ (i0 = 0 ∨ voc (i0 - 1) = false) ∧
    (∀ k, i0 ≤ k → k < j → voc k = true) ∧
    g.start = (i0 : ℚ) * dt ∧ g.duration = g.stop - g.start ∧
    ((j < n ∧ voc j = false ∧ g.stop = (j : ℚ) * dt ∧ (0.5 : ℚ) < g.stop - g.start) ∨
     (j = n ∧ g.stop = ((n - 1 : ℕ) : ℚ) * dt))

/-! ## The orchestrator `analyze_audio` (source lines 190-249) -/

/-- A raised Python exception as caught on line 244: its class name
(`type(e).__name__`) and message (`str(e)`). -/
structure PyErr where
  ename : String
  msg : String
  deriving DecidableEq

/-- The success payload assembled in the dict on source lines 226-240. -/
structure AnalysisResult where
  duration_seconds : ℚ
  bpm : ℚ
  key : String
  tempo : String
  genre : String
  beat_times : List ℚ
  beat_count : ℕ
  vocal_segments : List VocalSegment
  vocal_segment_count : ℕ
  spectral_centroid : ℚ
  zero_crossing_rate : ℚ
  sample_rate : ℕ
  deriving DecidableEq

/-- The structured output of `analyze_audio`: the success dict
(`success=True` plus the full `AnalysisResult`) or the failure dict of
lines 245-249 (`success=False`, `error`, `error_type`) — by construction a
failure carries no analysis fields. -/
inductive AnalyzeOutput where
  | ok : AnalysisResult → AnalyzeOutput
  | err : (error : String) → (error_type : String) → AnalyzeOutput
  deriving DecidableEq

/-- The library calls made inside the `try` block, each either returning a
value or raising (`Except.error`).  `corrcoef` is total: `np.corrcoef`
returns a float (possibly NaN) rather than raising on the shapes used
here. -/
structure AudioLib where
  load : Except PyErr (List ℚ × ℕ)
  get_duration : List ℚ → ℕ → Except PyErr ℚ
  beat_track : List ℚ → ℕ → Except PyErr (ℚ × List ℕ)
  chroma_cqt : List ℚ → ℕ → Except PyErr (List (List ℚ))
  corrcoef : List ℚ → List ℚ → ℚ
  rms : List ℚ → Except PyErr (List ℚ)
  spectral_centroid : List ℚ → ℕ → Except PyErr ℚ
  zero_crossing_rate : List ℚ → Except PyErr ℚ
  spectral_rolloff : List ℚ → ℕ → Except PyErr ℚ
  spectral_bandwidth : List ℚ → ℕ → Except PyErr ℚ

/-- The body of the `try` block (source lines 200-242): each library call
either raises — short-circuiting to the handler — or contributes to the
result dict.  The statement order is the source's; the rolloff and
bandwidth calls happen inside `estimate_genre` (lines 73-74), after the
zero-crossing computation. -/
def analyzeE (lib : AudioLib) : Except PyErr AnalysisResult :=
  match lib.load with
  | .error e => .error e
  | .ok (y, sr) =>
    match lib.get_duration y sr with
    | .error e => .error e
    | .ok duration =>
      match lib.beat_track y sr with
      | .error e => .error e
      | .ok (tempo, beat_frames) =>
        let beat_times := beat_frames.map (timeOfFrame sr)
        match lib.chroma_cqt y sr with
        | .error e => .error e
        | .ok chroma =>
          let key := estimate_key lib.corrcoef chroma
          match lib.rms y with
          | .error e => .error e
          | .ok rmsCurve =>
            let vocal_segments := detect_vocal_segments rmsCurve sr
            match lib.spectral_centroid y sr with
            | .error e => .error e
            | .ok centroid =>
              match lib.zero_crossing_rate y with
              | .error e => .error e
              | .ok zcr =>
                match lib.spectral_rolloff y sr with
                | .error e => .error e
                | .ok rolloff =>
                  match lib.spectral_bandwidth y sr with
                  | .error e => .error e
                  | .ok bandwidth =>
                    .ok { duration_seconds := duration
                          bpm := tempo
                          key := key
                          tempo := get_tempo_description tempo
                          genre := estimate_genre tempo centroid zcr rolloff bandwidth
                          beat_times := beat_times
                          beat_count := beat_times.length
                          vocal_segments := vocal_segments
                          vocal_segment_count := vocal_segments.length
                          spectral_centroid := centroid
                          zero_crossing_rate := zcr
                          sample_rate := sr }

/-- `analyze_audio` (source lines 190-249): run the `try` block; on any
raised exception return the structured failure dict with `error = str(e)`
and `error_type = type(e).__name__`. -/
def analyze_audio (lib : AudioLib) : AnalyzeOutput :=
  match analyzeE lib with
  | .ok r => .ok r
  | .error e => .err e.msg e.ename

/-- Some stage of the `try` block raised `e`, with every earlier stage
succeeding (Python executes statements in order, so the first raise is the
one caught). -/
@[reducible] def stageRaised (lib : AudioLib) (e : PyErr) : Prop :=
  lib.load = .error e ∨
  ∃ y sr, lib.load = .ok (y, sr) ∧
    (lib.get_duration y sr = .error e ∨
     ∃ d, lib.get_duration y sr = .ok d ∧
       (lib.beat_track y sr = .error e ∨
        ∃ tb, lib.beat_track y sr = .ok tb ∧
          (lib.chroma_cqt y sr = .error e ∨
           ∃ ch, lib.chroma_cqt y sr = .ok ch ∧
             (lib.rms y = .error e ∨
              ∃ rc, lib.rms y = .ok rc ∧
                (lib.spectral_centroid y sr = .error e ∨
                 ∃ c, lib.spectral_centroid y sr = .ok c ∧
                   (lib.zero_crossing_rate y = .error e ∨
                    ∃ z, lib.zero_crossing_rate y = .ok z ∧
                      (lib.spectral_rolloff y sr = .error e ∨
                       ∃ ro, lib.spectral_rolloff y sr = .ok ro ∧
                         lib.spectral_bandwidth y sr = .error e)))))))

/-- A concrete library environment describing a silent recording: the
decoder yields 2048 zero samples at 22050 Hz, the beat tracker reports no
periodicity (bpm 0, no beats), the RMS curve is identically zero, and the
scalar features are 0. -/
def silentLib : AudioLib where
  load := .ok (List.replicate 2048 0, 22050)
  get_duration := fun _ _ => .ok (2048 / 22050)
  beat_track := fun _ _ => .ok (0, [])
  chroma_cqt := fun _ _ => .ok (List.replicate 12 [0])
  corrcoef := fun _ _ => 0
  rms := fun _ => .ok (List.replicate 5 0)
  spectral_centroid := fun _ _ => .ok 0
  zero_crossing_rate := fun _ => .ok 0
  spectral_rolloff := fun _ _ => .ok 0
  spectral_bandwidth := fun _ _ => .ok 0

/-! ## Theorems -/

/-- C8: for every bpm value, `get_tempo_description` follows the cascade
exactly: below 60 "Very Slow", then "Slow" up to 80, "Moderate" up to 100,
"Medium Fast" up to 120, "Fast" up to 140, "Very Fast" up to 160, and
"Extremely Fast" from 160 on. -/
theorem get_tempo_description_cascade (bpm : ℚ) :
    (bpm < 60 → get_tempo_description bpm = "Very Slow") ∧
    (60 ≤ bpm → bpm < 80 → get_tempo_description bpm = "Slow") ∧
    (80 ≤ bpm → bpm < 100 → get_tempo_description bpm = "Moderate") ∧
    (100 ≤ bpm → bpm < 120 → get_tempo_description bpm = "Medium Fast") ∧
    (120 ≤ bpm → bpm < 140 → get_tempo_description bpm = "Fast") ∧
    (140 ≤ bpm → bpm < 160 → get_tempo_description bpm = "Very Fast") ∧
    (160 ≤ bpm → get_tempo_description bpm = "Extremely Fast") := by
  refine ⟨?_, ?_, ?_, ?_, ?_, ?_, ?_⟩
  · intro h
    unfold get_tempo_description
    rw [if_pos h]
  · intro h1 h2
    unfold get_tempo_description
    rw [if_neg (by linarith), if_pos h2]
  · intro h1 h2
    unfold get_tempo_description
    rw [if_neg (by linarith), if_neg (by linarith), if_pos h2]
  · intro h1 h2
    unfold get_tempo_description
    rw [if_neg (by linarith), if_neg (by linarith), if_neg (by linarith), if_pos h2]
  · intro h1 h2
    unfold get_tempo_description
    rw [if_neg (by linarith), if_neg (by linarith), if_neg (by linarith),
      if_neg (by linarith), if_pos h2]
  · intro h1 h2
    unfold get_tempo_description
    rw [if_neg (by linarith), if_neg (by linarith), if_neg (by linarith),
      if_neg (by linarith), if_neg (by linarith), if_pos h2]
  · intro h1
    unfold get_tempo_description
    rw [if_neg (by linarith), if_neg (by linarith), if_neg (by linarith),
      if_neg (by linarith), if_neg (by linarith), if_neg (by linarith)]

/-- Witness for C8: a bpm of 70 falls in the second band and is labelled
"Slow". -/
theorem get_tempo_description_cascade_witness :
    get_tempo_description 70 = "Slow" :=
  (get_tempo_description_cascade 70).2.1 (by norm_num) (by norm_num)

/-- C3: on tempo 125, centroid 2600, zcr 0.05, rolloff 3000, bandwidth
1850, the first rule of the cascade fires and returns "Dance"; the later
Pop rule (whose tempo guard 100 ≤ 125 ≤ 130 also holds) does not win. -/
theorem estimate_genre_rule_order :
    estimate_genre 125 2600 0.05 3000 1850 = "Dance" ∧
    ((100 : ℚ) ≤ 125 ∧ (125 : ℚ) ≤ 130) := by
  constructor
  · norm_num [estimate_genre]
  · norm_num

/-- An if-then-else lands in a list as soon as both branches do. -/
theorem ite_mem {α : Type} {c : Prop} [Decidable c] {a b : α} {L : List α}
    (ha : a ∈ L) (hb : b ∈ L) : (if c then a else b) ∈ L := by
  by_cases h : c
  · rwa [if_pos h]
  · rwa [if_neg h]

/-- C10: the genre cascade is total and closed over its fixed set of 16
labels. -/
theorem estimate_genre_total (t c z r b : ℚ) :
    estimate_genre t c z r b ∈ genreLabels := by
  unfold estimate_genre
  repeat' apply ite_mem
  all_goals simp [genreLabels]

/-- The engineered chroma profile ties the two correlation families
exactly: the best major-rotation score equals the best minor-rotation
score under the covariance measure `covQ`. -/
theorem tieChroma_pymax_eq :
    pymax (major_correlations covQ tieChromaMatrix) =
      pymax (minor_correlations covQ tieChromaMatrix) := by
  norm_num [pymax, major_correlations, minor_correlations, chroma_mean, npMean, covQ,
    dotQ, centeredQ, tieChromaMatrix, tieChroma, major_profile, minor_profile,
    List.rotateRight, List.range_succ, max_def]

/-- Counterexample to C1 as stated: under the covariance correlation
measure `covQ`, the chroma profile `tieChromaMatrix` has exactly equal
best major and best minor correlations, yet `estimate_key` returns the
minor label "C Minor", not a major label. -/
theorem estimate_key_tie_cex :
    pymax (major_correlations covQ tieChromaMatrix) =
      pymax (minor_correlations covQ tieChromaMatrix) ∧
    estimate_key covQ tieChromaMatrix = "C Minor" := by
  refine ⟨tieChroma_pymax_eq, ?_⟩
  norm_num [estimate_key, pymax, major_correlations, minor_correlations, chroma_mean,
    npMean, covQ, dotQ, centeredQ, tieChromaMatrix, tieChroma, major_profile,
    minor_profile, key_names, List.rotateRight, List.range_succ, max_def,
    List.indexOf, List.findIdx, List.findIdx.go]
  rfl

/-- C1 amended: when the highest major-rotation correlation exactly equals
the highest minor-rotation correlation, `estimate_key` returns the Minor
label at the first best minor rotation (the source's strict comparison
`max_major > max_minor` prefers minor on ties). -/
theorem estimate_key_tie_returns_minor (corr : List ℚ → List ℚ → ℚ) (chroma : List (List ℚ))
    (h : pymax (major_correlations corr chroma) = pymax (minor_correlations corr chroma)) :
    estimate_key corr chroma =
      key_names.getD ((minor_correlations corr chroma).indexOf
        (pymax (minor_correlations corr chroma))) "" ++ " Minor" := by
  simp only [estimate_key]
  rw [h, if_neg (lt_irrefl _)]

/-- Witness for the amended C1 at the concrete tied input. -/
theorem estimate_key_tie_returns_minor_witness :
    estimate_key covQ tieChromaMatrix =
      key_names.getD ((minor_correlations covQ tieChromaMatrix).indexOf
        (pymax (minor_correlations covQ tieChromaMatrix))) "" ++ " Minor" :=
  estimate_key_tie_returns_minor covQ tieChromaMatrix tieChroma_pymax_eq

/-- C9: the analysis is deterministic — the embedded pipeline is a pure
function of the decoded input and library responses, so two runs over the
same environment produce bit-identical structured results. -/
theorem analyze_audio_deterministic (lib lib2 : AudioLib) (h : lib = lib2) :
    analyze_audio lib = analyze_audio lib2 := by
  rw [h]

/-- Witness for C9 at the concrete silent-recording environment. -/
theorem analyze_audio_deterministic_witness :
    analyze_audio silentLib = analyze_audio silentLib :=
  analyze_audio_deterministic silentLib silentLib rfl

/-! ### Vocal segmentation: loop equations and the frame-grid bridge -/

/-- Loop equation: empty stream, not inside a segment. -/
theorem segLoop_nil_false (lastT s : ℚ) : segLoop lastT [] false s = [] := rfl

/-- Loop equation: empty stream while inside a segment — the final close of
source lines 180-185. -/
theorem segLoop_nil_true (lastT s : ℚ) :
    segLoop lastT [] true s = [⟨s, lastT, lastT - s⟩] := rfl

/-- Loop equation: a vocal frame outside a segment opens one. -/
theorem segLoop_cons_open (lastT t s : ℚ) (L : List (ℚ × Bool)) :
    segLoop lastT ((t, true) :: L) false s = segLoop lastT L true t := rfl

/-- Loop equation: a vocal frame inside a segment continues it. -/
theorem segLoop_cons_stay (lastT t s : ℚ) (L : List (ℚ × Bool)) :
    segLoop lastT ((t, true) :: L) true s = segLoop lastT L true s := rfl

/-- Loop equation: a non-vocal frame outside a segment is skipped. -/
theorem segLoop_cons_skip (lastT t s : ℚ) (L : List (ℚ × Bool)) :
    segLoop lastT ((t, false) :: L) false s = segLoop lastT L false s := rfl

/-- Loop equation: a non-vocal frame inside a segment closes it, emitting
it when it passes the half-second filter. -/
theorem segLoop_cons_close (lastT t s : ℚ) (L : List (ℚ × Bool)) :
    segLoop lastT ((t, false) :: L) true s =
      (if (0.5 : ℚ) < t - s then [⟨s, t, t - s⟩] else []) ++ segLoop lastT L false s := rfl

/-- Frame times grow monotonically with the index. -/
theorem mul_dt_mono {dt : ℚ} (hdt : 0 < dt) {a b : ℕ} (h : a ≤ b) :
    (a : ℚ) * dt ≤ (b : ℚ) * dt :=
  mul_le_mul_of_nonneg_right (by exact_mod_cast h) (le_of_lt hdt)

/-- Frame times grow strictly with the index. -/
theorem mul_dt_strict {dt : ℚ} (hdt : 0 < dt) {a b : ℕ} (h : a < b) :
    (a : ℚ) * dt < (b : ℚ) * dt :=
  mul_lt_mul_of_pos_right (by exact_mod_cast h) hdt

/-- `timeOfFrame` is the frame index times the frame spacing `512 / sr`. -/
theorem timeOfFrame_eq (sr : ℕ) (k : ℕ) :
    timeOfFrame sr k = (k : ℚ) * ((512 : ℚ) / (sr : ℚ)) := by
  unfold timeOfFrame
  ring

/-- `detect_vocal_segments` is the loop run over the indexed frame grid. -/
theorem detect_eq_segLoop (rms : List ℚ) (sr : ℕ) :
    detect_vocal_segments rms sr =
      segLoop (((rms.length - 1 : ℕ) : ℚ) * ((512 : ℚ) / (sr : ℚ)))
        ((List.range' 0 rms.length).map
          (fun (k : ℕ) => ((k : ℚ) * ((512 : ℚ) / (sr : ℚ)), vocFlag rms k))) false 0 := by
  have hvocal : rms.map (fun r => decide (vocalThreshold rms < r)) =
      (List.range rms.length).map (fun k => vocFlag rms k) := by
    apply List.ext_getElem
    · simp
    · intro i h1 h2
      simp only [List.getElem_map, List.getElem_range, vocFlag]
      congr 1
      rw [List.getD_eq_getElem?_getD, List.getElem?_eq_getElem (by simpa using h1)]
      rfl
  have hzip : ((List.range rms.length).map (timeOfFrame sr)).zip
        (rms.map (fun r => decide (vocalThreshold rms < r))) =
      (List.range' 0 rms.length).map
        (fun (k : ℕ) => ((k : ℚ) * ((512 : ℚ) / (sr : ℚ)), vocFlag rms k)) := by
    rw [hvocal, List.zip_map', List.range_eq_range']
    simp only [timeOfFrame_eq]
  have hlast : ((List.range rms.length).map (timeOfFrame sr)).getLastD 0 =
      ((rms.length - 1 : ℕ) : ℚ) * ((512 : ℚ) / (sr : ℚ)) := by
    cases hn : rms.length with
    | zero => simp
    | succ m =>
      rw [List.range_succ, List.map_append]
      simp [timeOfFrame_eq]
  simp only [detect_vocal_segments]
  rw [hzip, hlast]

/-- Master invariant of the segmentation loop over the frame grid
`i, i+1, …, n-1` (frame spacing `dt > 0`): every emitted segment has the
open/close shape `SegShape`, segments come out strictly ordered, and every
segment starts at or after the current frame (or at the pending open
time). -/
theorem segLoop_invariant (voc : ℕ → Bool) (n : ℕ) (dt : ℚ) (hdt : 0 < dt) :
    ∀ (m i : ℕ) (inSeg : Bool) (s : ℚ), i + m = n →
      (inSeg = true → ∃ i0, i0 < i ∧ s = (i0 : ℚ) * dt ∧ voc i0 = true ∧
        (∀ k, i0 ≤ k → k < i → voc k = true) ∧ (i0 = 0 ∨ voc (i0 - 1) = false)) →
      (inSeg = false → i = 0 ∨ voc (i - 1) = false) →
      (∀ g ∈ segLoop (((n - 1 : ℕ) : ℚ) * dt)
          ((List.range' i m).map (fun (k : ℕ) => ((k : ℚ) * dt, voc k))) inSeg s,
        SegShape voc n dt g ∧ ((i : ℚ) * dt ≤ g.start ∨ inSeg = true ∧ g.start = s)) ∧
      (segLoop (((n - 1 : ℕ) : ℚ) * dt)
          ((List.range' i m).map (fun (k : ℕ) => ((k : ℚ) * dt, voc k))) inSeg s).Chain'
        (fun a b => a.stop < b.start) := by
  intro m
  induction m with
  | zero =>
    intro i inSeg s hin hT hF
    cases inSeg with
    | false =>
      refine ⟨?_, ?_⟩
      · intro g hg
        simp only [List.range', List.map_nil, segLoop_nil_false] at hg
        exact absurd hg (List.not_mem_nil g)
      · simp only [List.range', List.map_nil, segLoop_nil_false]
        exact List.chain'_nil
    | true =>
      obtain ⟨i0, hi0, hs, hv0, hrun, hfirst⟩ := hT rfl
      have hi : i = n := by omega
      subst hi
      refine ⟨?_, ?_⟩
      · intro g hg
        simp only [List.range', List.map_nil, segLoop_nil_true,
          List.mem_singleton] at hg
        subst hg
        exact ⟨⟨i0, i, hi0, le_refl i, hv0, hfirst, hrun, by simpa using hs, rfl,
          Or.inr ⟨rfl, rfl⟩⟩, Or.inr ⟨rfl, rfl⟩⟩
      · simp only [List.range', List.map_nil, segLoop_nil_true]
        exact List.chain'_singleton _
  | succ m ih =>
    intro i inSeg s hin hT hF
    have hilt : i < n := by omega
    have hr : List.range' i (m + 1) = i :: List.range' (i + 1) m := rfl
    rw [hr, List.map_cons]
    cases hvi : voc i with
    | true =>
      cases inSeg with
      | false =>
        rw [segLoop_cons_open]
        have hT' : (true : Bool) = true → ∃ i0, i0 < i + 1 ∧ (i : ℚ) * dt = (i0 : ℚ) * dt ∧
            voc i0 = true ∧ (∀ k, i0 ≤ k → k < i + 1 → voc k = true) ∧
            (i0 = 0 ∨ voc (i0 - 1) = false) := by
          intro _
          refine ⟨i, by omega, rfl, hvi, ?_, hF rfl⟩
          intro k hk1 hk2
          have : k = i := by omega
          subst this
          exact hvi
        obtain ⟨ihMem, ihChain⟩ :=
          ih (i + 1) true ((i : ℚ) * dt) (by omega) hT' (by intro h; cases h)
        refine ⟨?_, ihChain⟩
        intro g hg
        obtain ⟨hShape, hPos⟩ := ihMem g hg
        refine ⟨hShape, Or.inl ?_⟩
        rcases hPos with h | ⟨-, h⟩
        · exact le_trans (mul_dt_mono hdt (Nat.le_succ i)) h
        · rw [h]
      | true =>
        rw [segLoop_cons_stay]
        obtain ⟨i0, hi0, hs, hv0, hrun, hfirst⟩ := hT rfl
        have hT' : (true : Bool) = true → ∃ j0, j0 < i + 1 ∧ s = (j0 : ℚ) * dt ∧
            voc j0 = true ∧ (∀ k, j0 ≤ k → k < i + 1 → voc k = true) ∧
            (j0 = 0 ∨ voc (j0 - 1) = false) := by
          intro _
          refine ⟨i0, by omega, hs, hv0, ?_, hfirst⟩
          intro k hk1 hk2
          rcases Nat.lt_or_ge k i with hk | hk
          · exact hrun k hk1 hk
          · have : k = i := by omega
            subst this
            exact hvi
        obtain ⟨ihMem, ihChain⟩ :=
          ih (i + 1) true s (by omega) hT' (by intro h; cases h)
        refine ⟨?_, ihChain⟩
        intro g hg
        obtain ⟨hShape, hPos⟩ := ihMem g hg
        refine ⟨hShape, ?_⟩
        rcases hPos with h | ⟨-, h⟩
        · exact Or.inl (le_trans (mul_dt_mono hdt (Nat.le_succ i)) h)
        · exact Or.inr ⟨rfl, h⟩
    | false =>
      cases inSeg with
      | false =>
        rw [segLoop_cons_skip]
        obtain ⟨ihMem, ihChain⟩ :=
          ih (i + 1) false s (by omega) (by intro h; cases h)
            (by intro _; right; simpa using hvi)
        refine ⟨?_, ihChain⟩
        intro g hg
        obtain ⟨hShape, hPos⟩ := ihMem g hg
        refine ⟨hShape, Or.inl ?_⟩
        rcases hPos with h | ⟨habs, -⟩
        · exact le_trans (mul_dt_mono hdt (Nat.le_succ i)) h
        · cases habs
      | true =>
        rw [segLoop_cons_close]
        obtain ⟨i0, hi0, hs, hv0, hrun, hfirst⟩ := hT rfl
        obtain ⟨ihMem, ihChain⟩ :=
          ih (i + 1) false s (by omega) (by intro h; cases h)
            (by intro _; right; simpa using hvi)
        by_cases hemit : (0.5 : ℚ) < (i : ℚ) * dt - s
        · rw [if_pos hemit]
          refine ⟨?_, ?_⟩
          · intro g hg
            rcases List.mem_append.mp hg with hg1 | hg2
            · rw [List.mem_singleton] at hg1
              subst hg1
              exact ⟨⟨i0, i, hi0, le_of_lt hilt, hv0, hfirst, hrun, hs, rfl,
                Or.inl ⟨hilt, hvi, rfl, hemit⟩⟩, Or.inr ⟨rfl, rfl⟩⟩
            · obtain ⟨hShape, hPos⟩ := ihMem g hg2
              refine ⟨hShape, Or.inl ?_⟩
              rcases hPos with h | ⟨habs, -⟩
              · exact le_trans (mul_dt_mono hdt (Nat.le_succ i)) h
              · cases habs
          · rw [List.singleton_append, List.chain'_cons']
            refine ⟨?_, ihChain⟩
            intro b hb
            have hbmem := List.mem_of_mem_head? hb
            obtain ⟨-, hPos⟩ := ihMem b hbmem
            rcases hPos with h | ⟨habs, -⟩
            · exact lt_of_lt_of_le (mul_dt_strict hdt (Nat.lt_succ_self i)) h
            · cases habs
        · rw [if_neg hemit, List.nil_append]
          refine ⟨?_, ihChain⟩
          intro g hg
          obtain ⟨hShape, hPos⟩ := ihMem g hg
          refine ⟨hShape, Or.inl ?_⟩
          rcases hPos with h | ⟨habs, -⟩
          · exact le_trans (mul_dt_mono hdt (Nat.le_succ i)) h
          · cases habs

/-- Every segment produced by `detect_vocal_segments` has the open/close
shape, and the segments come out strictly ordered. -/
theorem detect_vocal_segments_spec (rms : List ℚ) (sr : ℕ) (hsr : 0 < sr) :
    (∀ g ∈ detect_vocal_segments rms sr,
      SegShape (vocFlag rms) rms.length ((512 : ℚ) / (sr : ℚ)) g) ∧
    (detect_vocal_segments rms sr).Chain' (fun a b => a.stop < b.start) := by
  have hdt : 0 < (512 : ℚ) / (sr : ℚ) :=
    div_pos (by norm_num) (by exact_mod_cast hsr)
  have h := segLoop_invariant (vocFlag rms) rms.length ((512 : ℚ) / (sr : ℚ)) hdt
    rms.length 0 false 0 (by omega) (by intro h; cases h) (fun _ => Or.inl rfl)
  rw [detect_eq_segLoop]
  exact ⟨fun g hg => (h.1 g hg).1, h.2⟩

/-- A shaped segment never ends before it starts. -/
theorem segShape_start_le_stop {voc : ℕ → Bool} {n : ℕ} {dt : ℚ} (hdt : 0 < dt)
    {g : VocalSegment} (h : SegShape voc n dt g) : g.start ≤ g.stop := by
  obtain ⟨i0, j, hij, hjn, -, -, -, hstart, -, hbr⟩ := h
  rcases hbr with ⟨-, -, -, hlen⟩ | ⟨hj, hstop⟩
  · linarith
  · subst hj
    rw [hstart, hstop]
    exact mul_dt_mono hdt (by omega)

/-- A shaped segment starts no later than the final frame time. -/
theorem segShape_start_le_last {voc : ℕ → Bool} {n : ℕ} {dt : ℚ} (hdt : 0 < dt)
    {g : VocalSegment} (h : SegShape voc n dt g) :
    g.start ≤ ((n - 1 : ℕ) : ℚ) * dt := by
  obtain ⟨i0, j, hij, hjn, -, -, -, hstart, -, -⟩ := h
  rw [hstart]
  exact mul_dt_mono hdt (by omega)

/-- Strengthen the relation of a chain using a property of its members. -/
theorem chain'_imp_mem {α : Type} {R S : α → α → Prop} {P : α → Prop} :
    ∀ {l : List α}, l.Chain' R → (∀ a ∈ l, P a) →
      (∀ a b, P a → R a b → S a b) → l.Chain' S := by
  intro l
  induction l with
  | nil => intro _ _ _; exact List.chain'_nil
  | cons a l ih =>
    intro hC hP himp
    rw [List.chain'_cons'] at hC ⊢
    exact ⟨fun b hb => himp a b (hP a (List.mem_cons_self a l)) (hC.1 b hb),
      ih hC.2 (fun x hx => hP x (List.mem_cons_of_mem a hx)) himp⟩

/-- In a chain, every element except the last is related to some member. -/
theorem chain'_dropLast_rel {α : Type} {R : α → α → Prop} :
    ∀ {l : List α}, l.Chain' R → ∀ a ∈ l.dropLast, ∃ b ∈ l, R a b := by
  intro l
  induction l with
  | nil => intro _ a ha; simp at ha
  | cons x l ih =>
    intro hC a ha
    cases l with
    | nil => simp at ha
    | cons y t =>
      rw [List.chain'_cons] at hC
      rcases List.mem_cons.mp ha with rfl | hmem
      · exact ⟨y, List.mem_cons_of_mem a (List.mem_cons_self y t), hC.1⟩
      · obtain ⟨b, hb, hR⟩ := ih hC.2 a hmem
        exact ⟨b, List.mem_cons_of_mem x hb, hR⟩

/-- C7: the segments returned by `detect_vocal_segments` are time-ordered
and pairwise non-overlapping: each segment starts at or after the previous
segment's end, and starts are strictly increasing. -/
theorem detect_vocal_segments_ordered (rms : List ℚ) (sr : ℕ) (hsr : 0 < sr) :
    (detect_vocal_segments rms sr).Chain'
      (fun a b => a.stop ≤ b.start ∧ a.start < b.start) := by
  have hdt : 0 < (512 : ℚ) / (sr : ℚ) :=
    div_pos (by norm_num) (by exact_mod_cast hsr)
  obtain ⟨hShape, hChain⟩ := detect_vocal_segments_spec rms sr hsr
  exact chain'_imp_mem hChain
    (fun a ha => segShape_start_le_stop hdt (hShape a ha))
    (fun a b hP hR => ⟨le_of_lt hR, lt_of_le_of_lt hP hR⟩)

/-- Witness for C7: a signal with two bursts yields two ordered,
non-overlapping segments. -/
theorem detect_vocal_segments_ordered_witness :
    (detect_vocal_segments [9, 9, 0, 0, 9, 9, 0] 512).Chain'
      (fun a b => a.stop ≤ b.start ∧ a.start < b.start) :=
  detect_vocal_segments_ordered [9, 9, 0, 0, 9, 9, 0] 512 (by norm_num)

/-- C2 amended: every returned segment satisfies
`duration = stop - start` and `start ≤ stop`; every segment except
possibly the final one was closed by a below-threshold frame and has
duration strictly greater than 0.5 s.  The final segment may be a
trailing still-open run closed at the last frame time without the
minimum-length filter, so its duration can be arbitrarily small. -/
theorem detect_vocal_segments_durations (rms : List ℚ) (sr : ℕ) (hsr : 0 < sr) :
    (∀ g ∈ detect_vocal_segments rms sr,
      g.duration = g.stop - g.start ∧ g.start ≤ g.stop) ∧
    (∀ g ∈ (detect_vocal_segments rms sr).dropLast,
      (0.5 : ℚ) < g.duration ∧ g.start < g.stop) := by
  have hdt : 0 < (512 : ℚ) / (sr : ℚ) :=
    div_pos (by norm_num) (by exact_mod_cast hsr)
  obtain ⟨hShape, hChain⟩ := detect_vocal_segments_spec rms sr hsr
  refine ⟨?_, ?_⟩
  · intro g hg
    obtain ⟨i0, j, -, -, -, -, -, -, hdur, -⟩ := hShape g hg
    exact ⟨hdur, segShape_start_le_stop hdt (hShape g hg)⟩
  · intro g hg
    have hgmem : g ∈ detect_vocal_segments rms sr := List.dropLast_subset _ hg
    obtain ⟨b, hb, hR⟩ := chain'_dropLast_rel hChain g hg
    obtain ⟨i0, j, hij, hjn, hv, hf, hrun, hstart, hdur, hbr⟩ := hShape g hgmem
    rcases hbr with ⟨hjlt, hvj, hstop, hmin⟩ | ⟨hj, hstop⟩
    · exact ⟨by rw [hdur]; exact hmin, by linarith⟩
    · exfalso
      have hble := segShape_start_le_last hdt (hShape b hb)
      rw [hstop] at hR
      linarith

/-- Counterexample to C2 as stated: on the RMS curve `[0, 0, 4]` at sample
rate 512 the final frame opens a segment that is immediately closed at the
final frame time, emitting a segment with `stop = start` and
`duration = 0` — violating both `stop > start` and the 0.5 s minimum. -/
theorem detect_vocal_segments_trailing_cex :
    detect_vocal_segments [0, 0, 4] 512 = [⟨2, 2, 0⟩] ∧
    ¬ ((⟨2, 2, 0⟩ : VocalSegment).start < (⟨2, 2, 0⟩ : VocalSegment).stop) ∧
    ¬ ((0.5 : ℚ) ≤ (⟨2, 2, 0⟩ : VocalSegment).duration) := by
  refine ⟨?_, by norm_num, by norm_num⟩
  norm_num [detect_vocal_segments, segLoop, vocalThreshold, npMean, timeOfFrame,
    List.range_succ]

/-- Witness for the amended C2: the first segment of a two-burst signal is
an interior segment, so it passes the strict half-second filter. -/
theorem detect_vocal_segments_durations_witness :
    (0.5 : ℚ) < (⟨0, 2, 2⟩ : VocalSegment).duration ∧
    (⟨0, 2, 2⟩ : VocalSegment).start < (⟨0, 2, 2⟩ : VocalSegment).stop :=
  (detect_vocal_segments_durations [9, 9, 0, 0, 9, 9, 0] 512 (by norm_num)).2
    ⟨0, 2, 2⟩ (by
      norm_num [detect_vocal_segments, segLoop, vocalThreshold, npMean, timeOfFrame,
        List.range_succ])

/-- C4: `detect_vocal_segments` thresholds at `0.5 × mean(RMS)`; every
returned segment opens at the first frame of a run whose RMS strictly
exceeds the threshold (its predecessor, if any, is at or below it) and
closes at the first subsequent frame whose RMS is at or below the
threshold — or, for a run reaching the end of the signal, at the final
frame time. -/
theorem detect_vocal_segments_open_close (rms : List ℚ) (sr : ℕ) (hsr : 0 < sr) :
    vocalThreshold rms = 0.5 * (rms.sum / (rms.length : ℚ)) ∧
    ∀ g ∈ detect_vocal_segments rms sr, ∃ i j : ℕ, i < j ∧ j ≤ rms.length ∧
      vocalThreshold rms < rms.getD i 0 ∧
      (i = 0 ∨ rms.getD (i - 1) 0 ≤ vocalThreshold rms) ∧
      (∀ k, i ≤ k → k < j → vocalThreshold rms < rms.getD k 0) ∧
      g.start = timeOfFrame sr i ∧ g.duration = g.stop - g.start ∧
      ((j < rms.length ∧ rms.getD j 0 ≤ vocalThreshold rms ∧
          g.stop = timeOfFrame sr j) ∨
       (j = rms.length ∧ g.stop = timeOfFrame sr (rms.length - 1))) := by
  refine ⟨by unfold vocalThreshold npMean; ring, ?_⟩
  intro g hg
  obtain ⟨hShape, -⟩ := detect_vocal_segments_spec rms sr hsr
  obtain ⟨i, j, hij, hjn, hvi, hfirst, hrun, hstart, hdur, hbr⟩ := hShape g hg
  have hvoc : ∀ k, vocFlag rms k = true ↔ vocalThreshold rms < rms.getD k 0 := by
    intro k
    simp [vocFlag]
  have hvocf : ∀ k, vocFlag rms k = false ↔ rms.getD k 0 ≤ vocalThreshold rms := by
    intro k
    simp [vocFlag]
  refine ⟨i, j, hij, hjn, (hvoc i).mp hvi, ?_,
    fun k h1 h2 => (hvoc k).mp (hrun k h1 h2),
    by rw [hstart, timeOfFrame_eq], hdur, ?_⟩
  · rcases hfirst with h | h
    · exact Or.inl h
    · exact Or.inr ((hvocf _).mp h)
  · rcases hbr with ⟨h1, h2, h3, -⟩ | ⟨h1, h2⟩
    · exact Or.inl ⟨h1, (hvocf _).mp h2, by rw [h3, timeOfFrame_eq]⟩
    · exact Or.inr ⟨h1, by rw [h2, timeOfFrame_eq]⟩

/-- Witness for C4 at the RMS curve `[4, 4, 4, 0]`, sample rate 512: the
single returned segment `⟨0, 3, 3⟩` has the open/close shape. -/
theorem detect_vocal_segments_open_close_witness :
    ∃ i j : ℕ, i < j ∧ j ≤ ([4, 4, 4, 0] : List ℚ).length ∧
      vocalThreshold [4, 4, 4, 0] < ([4, 4, 4, 0] : List ℚ).getD i 0 ∧
      (i = 0 ∨ ([4, 4, 4, 0] : List ℚ).getD (i - 1) 0 ≤ vocalThreshold [4, 4, 4, 0]) ∧
      (∀ k, i ≤ k → k < j →
        vocalThreshold [4, 4, 4, 0] < ([4, 4, 4, 0] : List ℚ).getD k 0) ∧
      (⟨0, 3, 3⟩ : VocalSegment).start = timeOfFrame 512 i ∧
      (⟨0, 3, 3⟩ : VocalSegment).duration =
        (⟨0, 3, 3⟩ : VocalSegment).stop - (⟨0, 3, 3⟩ : VocalSegment).start ∧
      ((j < ([4, 4, 4, 0] : List ℚ).length ∧
          ([4, 4, 4, 0] : List ℚ).getD j 0 ≤ vocalThreshold [4, 4, 4, 0] ∧
          (⟨0, 3, 3⟩ : VocalSegment).stop = timeOfFrame 512 j) ∨
       (j = ([4, 4, 4, 0] : List ℚ).length ∧
          (⟨0, 3, 3⟩ : VocalSegment).stop =
            timeOfFrame 512 (([4, 4, 4, 0] : List ℚ).length - 1))) :=
  (detect_vocal_segments_open_close [4, 4, 4, 0] 512 (by norm_num)).2 ⟨0, 3, 3⟩ (by
    norm_num [detect_vocal_segments, segLoop, vocalThreshold, npMean, timeOfFrame,
      List.range_succ])

/-- If no frame is flagged vocal, the loop emits nothing. -/
theorem segLoop_allFalse (lastT s : ℚ) :
    ∀ L : List (ℚ × Bool), (∀ p ∈ L, p.2 = false) → segLoop lastT L false s = [] := by
  intro L
  induction L with
  | nil => intro _; rfl
  | cons p L ih =>
    intro hall
    obtain ⟨t, v⟩ := p
    have hv : v = false := hall (t, v) (List.mem_cons_self _ _)
    subst hv
    rw [segLoop_cons_skip]
    exact ih (fun q hq => hall q (List.mem_cons_of_mem _ hq))

/-- An identically-zero RMS curve yields no vocal segments: the adaptive
threshold is 0 and no frame strictly exceeds it. -/
theorem detect_silence (m sr : ℕ) :
    detect_vocal_segments (List.replicate m 0) sr = [] := by
  simp only [detect_vocal_segments]
  apply segLoop_allFalse
  intro p hp
  have h2 := (List.of_mem_zip hp).2
  simp only [List.mem_map] at h2
  obtain ⟨r, hr, hdec⟩ := h2
  have hr0 : r = (0 : ℚ) := List.eq_of_mem_replicate hr
  subst hr0
  rw [← hdec]
  have hthr : vocalThreshold (List.replicate m 0) = 0 := by
    unfold vocalThreshold npMean
    simp
  simp [hthr]

/-- C6: on an all-zero (silent) decoded signal of at least one frame, when
the beat tracker reports no periodicity (bpm 0, no beats — §4.2's silence
clause) and the RMS curve is identically zero, `analyze_audio` returns a
structured success with `bpm = 0`, `vocal_segment_count = 0` and
`beat_count = 0`. -/
theorem analyze_audio_silent (lib : AudioLib) (nsamp m sr : ℕ) (d : ℚ)
    (ch : List (List ℚ)) (c z ro bw : ℚ)
    (hn : 2048 ≤ nsamp)
    (hload : lib.load = Except.ok (List.replicate nsamp 0, sr))
    (hdur : lib.get_duration (List.replicate nsamp 0) sr = Except.ok d)
    (hbt : lib.beat_track (List.replicate nsamp 0) sr = Except.ok (0, []))
    (hch : lib.chroma_cqt (List.replicate nsamp 0) sr = Except.ok ch)
    (hrms : lib.rms (List.replicate nsamp 0) = Except.ok (List.replicate m 0))
    (hc : lib.spectral_centroid (List.replicate nsamp 0) sr = Except.ok c)
    (hz : lib.zero_crossing_rate (List.replicate nsamp 0) = Except.ok z)
    (hro : lib.spectral_rolloff (List.replicate nsamp 0) sr = Except.ok ro)
    (hbw : lib.spectral_bandwidth (List.replicate nsamp 0) sr = Except.ok bw) :
    ∃ r, analyze_audio lib = AnalyzeOutput.ok r ∧ r.bpm = 0 ∧
      r.vocal_segment_count = 0 ∧ r.beat_count = 0 := by
  refine ⟨AnalysisResult.mk d 0 (estimate_key lib.corrcoef ch)
    (get_tempo_description 0) (estimate_genre 0 c z ro bw) [] 0 [] 0 c z sr,
    ?_, rfl, rfl, rfl⟩
  simp [analyze_audio, analyzeE, hload, hdur, hbt, hch, hrms, hc, hz, hro, hbw,
    detect_silence]

/-- Witness for C6 at the concrete silent-recording environment. -/
theorem analyze_audio_silent_witness :
    ∃ r, analyze_audio silentLib = AnalyzeOutput.ok r ∧ r.bpm = 0 ∧
      r.vocal_segment_count = 0 ∧ r.beat_count = 0 :=
  analyze_audio_silent silentLib 2048 5 22050 (2048 / 22050) (List.replicate 12 [0])
    0 0 0 0 (by norm_num) rfl rfl rfl rfl rfl rfl rfl rfl rfl

/-- C5: `analyze_audio` is total and structured — it either returns a full
success record, or, when some stage of the `try` block raises (all earlier
stages having succeeded), the structured failure record carrying exactly
that exception's message and class name.  A failure, by construction of
`AnalyzeOutput`, carries no analysis fields. -/
theorem analyze_audio_structured (lib : AudioLib) :
    (∃ r, analyze_audio lib = AnalyzeOutput.ok r) ∨
    (∃ e, stageRaised lib e ∧ analyze_audio lib = AnalyzeOutput.err e.msg e.ename) := by
  cases hload : lib.load with
  | error e =>
    right
    refine ⟨e, Or.inl hload, ?_⟩
    simp [analyze_audio, analyzeE, hload]
  | ok p =>
    obtain ⟨y, sr⟩ := p
    cases hdur : lib.get_duration y sr with
    | error e =>
      right
      refine ⟨e, Or.inr ⟨y, sr, hload, Or.inl hdur⟩, ?_⟩
      simp [analyze_audio, analyzeE, hload, hdur]
    | ok d =>
      cases hbt : lib.beat_track y sr with
      | error e =>
        right
        refine ⟨e, Or.inr ⟨y, sr, hload, Or.inr ⟨d, hdur, Or.inl hbt⟩⟩, ?_⟩
        simp [analyze_audio, analyzeE, hload, hdur, hbt]
      | ok tb =>
        obtain ⟨t, bf⟩ := tb
        cases hch : lib.chroma_cqt y sr with
        | error e =>
          right
          refine ⟨e, Or.inr ⟨y, sr, hload, Or.inr ⟨d, hdur,
            Or.inr ⟨(t, bf), hbt, Or.inl hch⟩⟩⟩, ?_⟩
          simp [analyze_audio, analyzeE, hload, hdur, hbt, hch]
        | ok ch =>
          cases hrms : lib.rms y with
          | error e =>
            right
            refine ⟨e, Or.inr ⟨y, sr, hload, Or.inr ⟨d, hdur, Or.inr ⟨(t, bf), hbt,
              Or.inr ⟨ch, hch, Or.inl hrms⟩⟩⟩⟩, ?_⟩
            simp [analyze_audio, analyzeE, hload, hdur, hbt, hch, hrms]
          | ok rc =>
            cases hc : lib.spectral_centroid y sr with
            | error e =>
              right
              refine ⟨e, Or.inr ⟨y, sr, hload, Or.inr ⟨d, hdur, Or.inr ⟨(t, bf), hbt,
                Or.inr ⟨ch, hch, Or.inr ⟨rc, hrms, Or.inl hc⟩⟩⟩⟩⟩, ?_⟩
              simp [analyze_audio, analyzeE, hload, hdur, hbt, hch, hrms, hc]
            | ok c =>
              cases hz : lib.zero_crossing_rate y with
              | error e =>
                right
                refine ⟨e, Or.inr ⟨y, sr, hload, Or.inr ⟨d, hdur, Or.inr ⟨(t, bf), hbt,
                  Or.inr ⟨ch, hch, Or.inr ⟨rc, hrms, Or.inr ⟨c, hc, Or.inl hz⟩⟩⟩⟩⟩⟩, ?_⟩
                simp [analyze_audio, analyzeE, hload, hdur, hbt, hch, hrms, hc, hz]
              | ok z =>
                cases hro : lib.spectral_rolloff y sr with
                | error e =>
                  right
                  refine ⟨e, Or.inr ⟨y, sr, hload, Or.inr ⟨d, hdur,
                    Or.inr ⟨(t, bf), hbt, Or.inr ⟨ch, hch, Or.inr ⟨rc, hrms,
                    Or.inr ⟨c, hc, Or.inr ⟨z, hz, Or.inl hro⟩⟩⟩⟩⟩⟩⟩, ?_⟩
                  simp [analyze_audio, analyzeE, hload, hdur, hbt, hch, hrms, hc,
                    hz, hro]
                | ok ro =>
                  cases hbw : lib.spectral_bandwidth y sr with
                  | error e =>
                    right
                    refine ⟨e, Or.inr ⟨y, sr, hload, Or.inr ⟨d, hdur,
                      Or.inr ⟨(t, bf), hbt, Or.inr ⟨ch, hch, Or.inr ⟨rc, hrms,
                      Or.inr ⟨c, hc, Or.inr ⟨z, hz, Or.inr ⟨ro, hro, hbw⟩⟩⟩⟩⟩⟩⟩⟩, ?_⟩
                    simp [analyze_audio, analyzeE, hload, hdur, hbt, hch, hrms, hc,
                      hz, hro, hbw]
                  | ok bw =>
                    left
                    refine ⟨AnalysisResult.mk d t (estimate_key lib.corrcoef ch)
                      (get_tempo_description t) (estimate_genre t c z ro bw)
                      (bf.map (timeOfFrame sr)) (bf.map (timeOfFrame sr)).length
                      (detect_vocal_segments rc sr)
                      (detect_vocal_segments rc sr).length c z sr, ?_⟩
                    simp [analyze_audio, analyzeE, hload, hdur, hbt, hch, hrms, hc,
                      hz, hro, hbw]
